import Mathlib

/-!
Shallow embedding of pikax src/pikax/util.py: the retrying request
helper `req` and the progress/time-left estimator `Printer`.

Python floats are modelled by exact rationals (ℚ) plus an explicit
infinity sentinel where the code uses float("inf").  Python exceptions
(ZeroDivisionError at `/`, TypeError when arithmetic hits None) are
modelled with Except.  Wall-clock time (time.time()) is an explicit
ℚ-valued parameter threaded into each call.
-/

instance {ε α : Type} [DecidableEq ε] [DecidableEq α] : DecidableEq (Except ε α) :=
  fun a b =>
    match a, b with
    | .error e1, .error e2 =>
      if h : e1 = e2 then .isTrue (by rw [h]) else .isFalse (by simp [h])
    | .error _, .ok _ => .isFalse (by simp)
    | .ok _, .error _ => .isFalse (by simp)
    | .ok v1, .ok v2 =>
      if h : v1 = v2 then .isTrue (by rw [h]) else .isFalse (by simp [h])

/-- Python runtime errors the embedded code can raise. -/
inductive PyError where
  | zeroDivisionError
  | typeError
deriving DecidableEq, Repr

/-- A Python float value as used by the estimator: either the
float("inf") sentinel or an exact rational. -/
inductive PyFloat where
  | inf
  | val (q : ℚ)
deriving DecidableEq, Repr

/-- Python true division `a / b`: raises ZeroDivisionError when `b = 0`. -/
def pyDiv (a b : ℚ) : Except PyError ℚ :=
  if b = 0 then .error .zeroDivisionError else .ok (a / b)

/-- Python round() on an exact value: round half to even (banker's
rounding), returning an int. -/
def pyRound (q : ℚ) : Int :=
  if q - ⌊q⌋ < 1 / 2 then ⌊q⌋
  else if q - ⌊q⌋ > 1 / 2 then ⌊q⌋ + 1
  else if 2 ∣ ⌊q⌋ then ⌊q⌋ else ⌊q⌋ + 1

/-- Python list slice `l[i:]` for an int index `i` (negative indices
count from the end, clamped to the list). -/
def pySliceFrom (l : List ℚ) (i : Int) : List ℚ :=
  if 0 ≤ i then l.drop i.toNat
  else l.drop (l.length - (-i).toNat)

/-- Reading an attribute that must be a number: Python raises TypeError
when arithmetic is attempted on None. -/
def expectNum {α : Type} : Option α → Except PyError α
  | some a => .ok a
  | none => .error .typeError

/-- The shape of the progress line built by Printer.print_progress
(texts.py is not part of src/, so the two format strings
texts.PROGRESS_WITH_TIME_LEFT and texts.PROGRESS_TEXT are modelled
structurally, keeping exactly the fields they interpolate). -/
inductive ProgressText where
  | withTimeLeft (curr total : ℚ) (curr_percent : Int) (time_left : Option PyFloat)
  | plain (curr total : ℚ) (curr_percent : Int)
deriving DecidableEq, Repr

/-- A printed progress line: the formatted text plus the optional
caller message appended after the separator. -/
structure ProgressLine where
  text : ProgressText
  msg : Option String
deriving DecidableEq, Repr

/-- State of util.Printer.  Fields mirror Printer.__init__ exactly;
None becomes Option.none. -/
structure Printer where
  is_first_print : Bool
  last_percent : Option Int
  last_percent_time_left : Option PyFloat
  last_percent_print_time : Option ℚ
  est_time_lefts : List ℚ
  start_time : Option ℚ
  last_printed_line : Option ProgressLine
deriving DecidableEq, Repr

/-- Printer.__init__: fresh instance; sliding window of five zeros. -/
def Printer.init : Printer :=
  { is_first_print := true
    last_percent := none
    last_percent_time_left := none
    last_percent_print_time := none
    est_time_lefts := [0, 0, 0, 0, 0]
    start_time := none
    last_printed_line := none }

/-- Python truth test `est_time_left != 0.0` (None and inf both compare
unequal to 0.0). -/
def estNeZero : Option PyFloat → Bool
  | none => true
  | some .inf => true
  | some (.val q) => decide (q ≠ 0)

/-- The progress line print_progress builds: the time-left form when
the estimate compares unequal to 0.0, the plain form otherwise, with
the optional message appended. -/
def progressLineOf (curr total : ℚ) (curr_percent : Int) (msg : Option String)
    (est_time_left : Option PyFloat) : ProgressLine :=
  { text := if estNeZero est_time_left then
        ProgressText.withTimeLeft curr total curr_percent est_time_left
      else ProgressText.plain curr total curr_percent
    msg := msg }

/-- The common tail of Printer.print_progress after the if/elif/else:
store curr_percent, build and record the progress line. -/
def progressFinish (curr total : ℚ) (curr_percent : Int) (msg : Option String)
    (s : Printer) (est_time_left : Option PyFloat) :
    Printer × Option PyFloat × ProgressLine :=
  let s1 := { s with last_percent := some curr_percent }
  let line := progressLineOf curr total curr_percent msg est_time_left
  ({ s1 with last_printed_line := some line }, est_time_left, line)

/-- Printer.print_progress, translated line by line.  `curr_time` is
the value of time.time() at this call.  Returns the updated state, the
local est_time_left (None/inf/value, as reported in the progress
line), and the printed line. -/
def Printer.print_progress (s : Printer) (curr_time curr total : ℚ)
    (msg : Option String) :
    Except PyError (Printer × Option PyFloat × ProgressLine) :=
  match pyDiv curr total with
  | .error e => .error e
  | .ok frac =>
    let curr_percent : Int := ⌊frac * 100⌋
    if s.is_first_print then
      let s1 := { s with is_first_print := false
                         last_percent_time_left := some PyFloat.inf
                         last_percent_print_time := some curr_time
                         start_time := some curr_time }
      .ok (progressFinish curr total curr_percent msg s1 (some PyFloat.inf))
    else if s.last_percent = some curr_percent then
      .ok (progressFinish curr total curr_percent msg s s.last_percent_time_left)
    else
      match s.last_percent_print_time, s.last_percent with
      | some lppt, some lp =>
        match pyDiv (curr_time - lppt) ((curr_percent : ℚ) - (lp : ℚ)) with
        | .error e => .error e
        | .ok slope =>
          let bad_est_time_left := slope * (100 - (curr_percent : ℚ))
          let ests := (s.est_time_lefts ++ [bad_est_time_left]).drop 1
          let percent_left : Int := 100 - curr_percent
          let percent_diff : Int := curr_percent - lp
          match pyDiv (percent_left : ℚ) (percent_diff : ℚ) with
          | .error e => .error e
          | .ok chunkFrac =>
            let chunk_left : Int := pyRound chunkFrac
            let estE : Except PyError ℚ :=
              if chunk_left < (ests.length : Int) then
                if chunk_left ≠ 0 then
                  pyDiv (pySliceFrom ests (-chunk_left)).sum (chunk_left : ℚ)
                else .ok 0
              else pyDiv ests.sum (ests.length : ℚ)
            match estE with
            | .error e => .error e
            | .ok est_q =>
              let s1 := { s with est_time_lefts := ests
                                 last_percent_time_left := some (PyFloat.val est_q)
                                 last_percent_print_time := some curr_time }
              .ok (progressFinish curr total curr_percent msg s1 (some (PyFloat.val est_q)))
      | none, _ => .error .typeError
      | some _, none => .error .typeError

/-- Printer.print_done: reset every field; note the window is reset to
THREE zero slots, not the five of __init__. -/
def Printer.print_done (s : Printer) : Printer :=
  { s with is_first_print := true
           start_time := none
           last_percent := none
           last_percent_print_time := none
           last_percent_time_left := none
           last_printed_line := none
           est_time_lefts := [0, 0, 0] }

/-- Run a sequence of print_progress calls, each given as
(time, curr, total), threading the state; the message is None. -/
def runProgress (s : Printer) : List (ℚ × ℚ × ℚ) → Except PyError Printer
  | [] => .ok s
  | c :: rest =>
    match s.print_progress c.1 c.2.1 c.2.2 none with
    | .error e => .error e
    | .ok out => runProgress out.1 rest

/-!
Embedding of util.req.  The requests library is third-party: one
network attempt is abstracted as an `AttemptResult` (a response object
with its truthiness and status code, a Timeout, or a generic
RequestException), and the behaviour of the network is a function from
the attempt index to its result.  settings.py is not part of src/, so
its knobs (DELAY_PER_REQUEST, REQUEST_RETRY_DELAY and the defaults for
retries/log_req) are fields of the configuration.  Side effects (log
emissions, the network call itself, the two kinds of sleep) are
recorded in an event trace.
-/

/-- A requests.Response as far as req inspects it: its truth value
(`not res`) and its status_code. -/
structure Response where
  truthy : Bool
  status_code : Nat
deriving DecidableEq, Repr

/-- Outcome of one call to the underlying requester. -/
inductive AttemptResult where
  | success (r : Response)
  | timeout
  | requestException
deriving DecidableEq, Repr

/-- The log emissions req can make, one constructor per log call site
(texts.py is not part of src/, so the format strings are modelled
structurally by which template is used and what it interpolates). -/
inductive LogKind where
  | requestInfo
  | statusCode (c : Nat)
  | falsey
  | invalidStatusCode (c : Nat)
  | timedOut
  | requestExceptionLog
  | reason
  | errMsg (m : String)
deriving DecidableEq, Repr

/-- Observable events of one req call, in order. -/
inductive ReqEvent where
  | logged (k : LogKind)
  | attempt (n : Nat)
  | sleepPerRequest (d : ℚ)
  | sleepRetryDelay (d : ℚ)
deriving DecidableEq, Repr

/-- The parameters of a req call, together with the settings.py knobs
it reads. -/
structure ReqConfig where
  url : String
  req_type : String
  params : Option String
  err_msg : Option String
  log_req : Bool
  retries : Nat
  delay_per_request : Option ℚ
  request_retry_delay : Option ℚ
deriving DecidableEq, Repr

/-- Modelled from the spec: ReqException (exceptions.py, not in src/)
raised with texts.REQUEST_EXCEPTION_MSG (texts.py, not in src/), which
interpolates the upper-cased method, the url and the params — per the
spec, a failure "carrying the method, target, and parameters". -/
structure ReqExceptionData where
  req_type : String
  url : String
  params : Option String
deriving DecidableEq, Repr

/-- The exception req raises after exhausting all retries. -/
def reqExhausted (cfg : ReqConfig) : ReqExceptionData :=
  { req_type := cfg.req_type.toUpper, url := cfg.url, params := cfg.params }

/-- Events of the log calls under an `if log_req:` guard. -/
def logIf (b : Bool) (ks : List LogKind) : List ReqEvent :=
  if b then ks.map ReqEvent.logged else []

/-- The sleep before returning a success, when DELAY_PER_REQUEST is
configured. -/
def perRequestSleepEvents (cfg : ReqConfig) : List ReqEvent :=
  match cfg.delay_per_request with
  | some d => [ReqEvent.sleepPerRequest d]
  | none => []

/-- The end-of-iteration sleep, when REQUEST_RETRY_DELAY is
configured. -/
def retrySleepEvents (cfg : ReqConfig) : List ReqEvent :=
  match cfg.request_retry_delay with
  | some d => [ReqEvent.sleepRetryDelay d]
  | none => []

/-- The log calls of the except-branches and of the two failure checks
on a response, per iteration (err_msg is logged only when present). -/
def failureLogs (cfg : ReqConfig) (a : AttemptResult) : List ReqEvent :=
  match a with
  | .success r =>
    if r.truthy = false then logIf cfg.log_req [.falsey]
    else logIf cfg.log_req [.invalidStatusCode r.status_code]
  | .timeout => logIf cfg.log_req [.timedOut, .reason]
  | .requestException =>
    logIf cfg.log_req
      ([.requestExceptionLog, .reason] ++
        (match cfg.err_msg with | some m => [.errMsg m] | none => []))

/-- The while-loop of req, by recursion on the remaining iteration
count `retries - curr_retries` (the loop runs while
curr_retries < retries, incrementing curr_retries once per
iteration). -/
def reqLoop (cfg : ReqConfig) (att : Nat → AttemptResult) :
    Nat → Nat → List ReqEvent × Except ReqExceptionData Response
  | _, 0 => ([], .error (reqExhausted cfg))
  | curr, remaining + 1 =>
    let pre := logIf cfg.log_req [.requestInfo] ++ [ReqEvent.attempt curr]
    match att curr with
    | .success r =>
      let post := logIf cfg.log_req [.statusCode r.status_code]
      if r.truthy = true ∧ r.status_code < 400 then
        (pre ++ post ++ perRequestSleepEvents cfg, .ok r)
      else
        let rest := reqLoop cfg att (curr + 1) remaining
        (pre ++ post ++ failureLogs cfg (.success r) ++ retrySleepEvents cfg ++ rest.1,
          rest.2)
    | .timeout =>
        let rest := reqLoop cfg att (curr + 1) remaining
        (pre ++ failureLogs cfg .timeout ++ retrySleepEvents cfg ++ rest.1, rest.2)
    | .requestException =>
        let rest := reqLoop cfg att (curr + 1) remaining
        (pre ++ failureLogs cfg .requestException ++ retrySleepEvents cfg ++ rest.1,
          rest.2)

/-- util.req: run the retry loop from curr_retries = 0; if the loop
exits without returning, raise ReqException. -/
def req (cfg : ReqConfig) (att : Nat → AttemptResult) :
    List ReqEvent × Except ReqExceptionData Response :=
  reqLoop cfg att 0 cfg.retries

/-- Whether an event is a network attempt. -/
def isAttempt : ReqEvent → Bool
  | .attempt _ => true
  | _ => false

/-- Number of network attempts recorded in a trace. -/
def countAttempts (evs : List ReqEvent) : Nat :=
  evs.countP isAttempt

/-- A transient failure of one attempt: falsy response, status ≥ 400,
timeout, or generic request exception. -/
def isTransient : AttemptResult → Bool
  | .success r => r.truthy = false ∨ 400 ≤ r.status_code
  | .timeout => true
  | .requestException => true

theorem countAttempts_append (a b : List ReqEvent) :
    countAttempts (a ++ b) = countAttempts a + countAttempts b :=
  List.countP_append ..

theorem countAttempts_logIf (b : Bool) (ks : List LogKind) :
    countAttempts (logIf b ks) = 0 := by
  cases b <;> induction ks <;>
    simp_all [logIf, countAttempts, List.countP_cons, isAttempt]

theorem countAttempts_perRequestSleepEvents (cfg : ReqConfig) :
    countAttempts (perRequestSleepEvents cfg) = 0 := by
  unfold perRequestSleepEvents
  cases cfg.delay_per_request <;> simp [countAttempts, List.countP_cons, isAttempt]

theorem countAttempts_retrySleepEvents (cfg : ReqConfig) :
    countAttempts (retrySleepEvents cfg) = 0 := by
  unfold retrySleepEvents
  cases cfg.request_retry_delay <;> simp [countAttempts, List.countP_cons, isAttempt]

theorem countAttempts_failureLogs (cfg : ReqConfig) (a : AttemptResult) :
    countAttempts (failureLogs cfg a) = 0 := by
  unfold failureLogs
  cases a with
  | success r =>
    by_cases hr : r.truthy = false <;> simp [hr, countAttempts_logIf]
  | timeout => exact countAttempts_logIf ..
  | requestException => exact countAttempts_logIf ..

theorem countAttempts_attempt_one (curr : Nat) :
    countAttempts [ReqEvent.attempt curr] = 1 := by
  simp [countAttempts, List.countP_cons, isAttempt]

theorem countAttempts_pre (b : Bool) (curr : Nat) :
    countAttempts (logIf b [.requestInfo] ++ [ReqEvent.attempt curr]) = 1 := by
  rw [countAttempts_append, countAttempts_logIf, countAttempts_attempt_one]

/-- Core lemma for the retry loop: if every attempt is a transient
failure, each remaining iteration makes exactly one attempt, and the
loop ends in the exhausted-retries exception. -/
theorem reqLoop_allTransient (cfg : ReqConfig) (att : Nat → AttemptResult)
    (h : ∀ n, isTransient (att n) = true) :
    ∀ remaining curr,
      countAttempts (reqLoop cfg att curr remaining).1 = remaining ∧
        (reqLoop cfg att curr remaining).2 = .error (reqExhausted cfg)
  | 0, _ => by simp [reqLoop, countAttempts]
  | n + 1, curr => by
    have ih := reqLoop_allTransient cfg att h n (curr + 1)
    have ht := h curr
    cases ha : att curr with
    | success r =>
      rw [ha] at ht
      have hcond : ¬ (r.truthy = true ∧ r.status_code < 400) := by
        simp only [isTransient, decide_eq_true_eq] at ht
        rcases ht with ht | ht
        · rintro ⟨h1, -⟩; rw [ht] at h1; exact Bool.false_ne_true h1
        · rintro ⟨-, h2⟩; omega
      constructor
      · simp only [reqLoop, ha, if_neg hcond, countAttempts_append,
          countAttempts_logIf, countAttempts_failureLogs,
          countAttempts_retrySleepEvents, countAttempts_attempt_one, ih.1]
        omega
      · simp only [reqLoop, ha, if_neg hcond]
        exact ih.2
    | timeout =>
      constructor
      · simp only [reqLoop, ha, countAttempts_append, countAttempts_logIf,
          countAttempts_failureLogs, countAttempts_retrySleepEvents,
          countAttempts_attempt_one, ih.1]
        omega
      · simp only [reqLoop, ha]
        exact ih.2
    | requestException =>
      constructor
      · simp only [reqLoop, ha, countAttempts_append, countAttempts_logIf,
          countAttempts_failureLogs, countAttempts_retrySleepEvents,
          countAttempts_attempt_one, ih.1]
        omega
      · simp only [reqLoop, ha]
        exact ih.2

/-- Whether an event is the inter-retry sleep. -/
def isRetrySleep : ReqEvent → Bool
  | .sleepRetryDelay _ => true
  | _ => false

/-- A network behaviour whose every attempt times out. -/
def attTimeout : Nat → AttemptResult := fun _ => .timeout

/-- A network behaviour whose every attempt yields a truthy 200
response. -/
def attAlwaysOk : Nat → AttemptResult :=
  fun _ => .success { truthy := true, status_code := 200 }

/-- A req configuration with three retries. -/
def cfgRetryThree : ReqConfig :=
  { url := "http://x", req_type := "get", params := none, err_msg := none,
    log_req := true, retries := 3, delay_per_request := none,
    request_retry_delay := some 1 }

/-- A req configuration with retries = 0. -/
def cfgZeroRetries : ReqConfig :=
  { url := "http://x", req_type := "get", params := none, err_msg := none,
    log_req := false, retries := 0, delay_per_request := none,
    request_retry_delay := none }

/-- A req configuration with a per-request rate-limit delay. -/
def cfgDelay : ReqConfig :=
  { url := "http://y", req_type := "post", params := none, err_msg := none,
    log_req := false, retries := 2, delay_per_request := some 1,
    request_retry_delay := some 1 }

/-- C1: for every retries = N ≥ 1, if every attempt yields a transient
failure, req makes exactly N attempts and then raises ReqException
carrying the request method, url and params; no individual attempt's
failure is surfaced. -/
theorem req_all_transient_raises (cfg : ReqConfig) (att : Nat → AttemptResult)
    (_hN : 1 ≤ cfg.retries) (h : ∀ n, isTransient (att n) = true) :
    countAttempts (req cfg att).1 = cfg.retries ∧
    (req cfg att).2 = .error
      { req_type := cfg.req_type.toUpper, url := cfg.url, params := cfg.params } :=
  reqLoop_allTransient cfg att h cfg.retries 0

/-- Witness for C1 at N = 3 with every attempt timing out. -/
theorem req_all_transient_raises_witness :
    countAttempts (req cfgRetryThree attTimeout).1 = 3 ∧
    (req cfgRetryThree attTimeout).2 = .error
      { req_type := "get".toUpper, url := "http://x", params := none } :=
  req_all_transient_raises cfgRetryThree attTimeout (by decide) (fun _ => rfl)

/-- C2 counterexample: with retries = 0 the loop body never runs, so
req makes ZERO attempts (the claim says exactly one) and raises at
once. -/
theorem req_zero_retries_counterexample :
    countAttempts (req cfgZeroRetries attAlwaysOk).1 = 0 ∧
    ¬ countAttempts (req cfgZeroRetries attAlwaysOk).1 = 1 ∧
    (req cfgZeroRetries attAlwaysOk).2 = .error
      { req_type := "get".toUpper, url := "http://x", params := none } :=
  ⟨rfl, by decide, rfl⟩

/-- C2 amended: when req is called with retries = 0, it makes no
attempt at all (no network call, no sleeps, no logs) and immediately
raises ReqException. -/
theorem req_zero_retries_amended (cfg : ReqConfig) (att : Nat → AttemptResult)
    (h : cfg.retries = 0) :
    (req cfg att).1 = [] ∧
    (req cfg att).2 = .error
      { req_type := cfg.req_type.toUpper, url := cfg.url, params := cfg.params } := by
  simp [req, h, reqLoop, reqExhausted]

/-- Witness for the amended C2. -/
theorem req_zero_retries_amended_witness :
    (req cfgZeroRetries attAlwaysOk).1 = [] ∧
    (req cfgZeroRetries attAlwaysOk).2 = .error
      { req_type := "get".toUpper, url := "http://x", params := none } :=
  req_zero_retries_amended cfgZeroRetries attAlwaysOk rfl

/-- C5: if the first attempt yields a truthy response with status
code < 400 (and retries ≥ 1 so an attempt happens), req makes exactly
one attempt, never sleeps the inter-retry delay, and returns that
response, its whole trace being the request log, the single attempt,
the status log, and the optional per-request rate-limit sleep last. -/
theorem req_first_success (cfg : ReqConfig) (att : Nat → AttemptResult) (r : Response)
    (hret : 1 ≤ cfg.retries) (ha : att 0 = .success r)
    (htr : r.truthy = true) (hsc : r.status_code < 400) :
    (req cfg att).2 = .ok r ∧
    countAttempts (req cfg att).1 = 1 ∧
    (req cfg att).1.countP isRetrySleep = 0 ∧
    (req cfg att).1 =
      logIf cfg.log_req [.requestInfo] ++ [ReqEvent.attempt 0] ++
        logIf cfg.log_req [.statusCode r.status_code] ++ perRequestSleepEvents cfg := by
  obtain ⟨n, hn⟩ : ∃ n, cfg.retries = n + 1 := ⟨cfg.retries - 1, by omega⟩
  have hloop : req cfg att =
      (logIf cfg.log_req [.requestInfo] ++ [ReqEvent.attempt 0] ++
        logIf cfg.log_req [.statusCode r.status_code] ++ perRequestSleepEvents cfg,
        .ok r) := by
    rw [req, hn]
    simp [reqLoop, ha, htr, hsc, List.append_assoc]
  rw [hloop]
  refine ⟨rfl, ?_, ?_, by simp [List.append_assoc]⟩
  · rw [countAttempts_append, countAttempts_append, countAttempts_append,
      countAttempts_logIf, countAttempts_logIf, countAttempts_attempt_one,
      countAttempts_perRequestSleepEvents]
  · rw [List.countP_append, List.countP_append, List.countP_append]
    cases cfg.log_req <;> cases hd : cfg.delay_per_request <;>
      simp [logIf, perRequestSleepEvents, hd, isRetrySleep, List.countP_cons]

/-- Witness for C5: first attempt succeeds, per-request delay
configured; one attempt, no retry sleep, per-request sleep last. -/
theorem req_first_success_witness :
    (req cfgDelay attAlwaysOk).2 = .ok { truthy := true, status_code := 200 } ∧
    countAttempts (req cfgDelay attAlwaysOk).1 = 1 ∧
    (req cfgDelay attAlwaysOk).1.countP isRetrySleep = 0 ∧
    (req cfgDelay attAlwaysOk).1 =
      [ReqEvent.attempt 0, ReqEvent.sleepPerRequest 1] :=
  req_first_success cfgDelay attAlwaysOk { truthy := true, status_code := 200 }
    (by decide) rfl rfl (by decide)

/-- Core lemma for C8: the retry loop's outcome and attempt count do
not depend on the log_req flag. -/
theorem reqLoop_log_irrelevant (cfg : ReqConfig) (att : Nat → AttemptResult)
    (b1 b2 : Bool) :
    ∀ remaining curr,
      (reqLoop { cfg with log_req := b1 } att curr remaining).2 =
        (reqLoop { cfg with log_req := b2 } att curr remaining).2 ∧
      countAttempts (reqLoop { cfg with log_req := b1 } att curr remaining).1 =
        countAttempts (reqLoop { cfg with log_req := b2 } att curr remaining).1
  | 0, _ => ⟨rfl, rfl⟩
  | n + 1, curr => by
    have ih := reqLoop_log_irrelevant cfg att b1 b2 n (curr + 1)
    cases ha : att curr with
    | success r =>
      by_cases hc : r.truthy = true ∧ r.status_code < 400
      · constructor
        · simp [reqLoop, ha, if_pos hc]
        · simp only [reqLoop, ha, if_pos hc]
          simp only [countAttempts, List.countP_append, List.countP_cons]
          cases hd : cfg.delay_per_request <;> cases b1 <;> cases b2 <;>
            simp [logIf, perRequestSleepEvents, hd, isAttempt, List.countP_cons]
      · refine ⟨?_, ?_⟩
        · simp only [reqLoop, ha, if_neg hc]
          exact ih.1
        · simp only [reqLoop, ha, if_neg hc, countAttempts_append, countAttempts_logIf,
            countAttempts_attempt_one, countAttempts_failureLogs,
            countAttempts_retrySleepEvents]
          rw [ih.2]
    | timeout =>
      refine ⟨?_, ?_⟩
      · simp only [reqLoop, ha]
        exact ih.1
      · simp only [reqLoop, ha, countAttempts_append, countAttempts_logIf,
          countAttempts_attempt_one, countAttempts_failureLogs,
          countAttempts_retrySleepEvents]
        rw [ih.2]
    | requestException =>
      refine ⟨?_, ?_⟩
      · simp only [reqLoop, ha]
        exact ih.1
      · simp only [reqLoop, ha, countAttempts_append, countAttempts_logIf,
          countAttempts_attempt_one, countAttempts_failureLogs,
          countAttempts_retrySleepEvents]
        rw [ih.2]

/-- C8: for a fixed request and fixed per-attempt network behaviour,
the outcome of req (the response returned or the exception raised, and
the number of attempts made) is identical whether log_req is True or
False. -/
theorem req_log_flag_noninterference (cfg : ReqConfig) (att : Nat → AttemptResult) :
    (req { cfg with log_req := true } att).2 =
      (req { cfg with log_req := false } att).2 ∧
    countAttempts (req { cfg with log_req := true } att).1 =
      countAttempts (req { cfg with log_req := false } att).1 :=
  reqLoop_log_irrelevant cfg att true false cfg.retries 0

/-- Any successful print_progress call leaves is_first_print cleared,
stores the computed floor-percent in last_percent, caches the reported
estimate in last_percent_time_left, and preserves the length of the
sliding window. -/
theorem print_progress_ok_post (s s2 : Printer) (t c tot : ℚ) (m : Option String)
    (e : Option PyFloat) (l : ProgressLine)
    (h : s.print_progress t c tot m = .ok (s2, e, l)) :
    s2.is_first_print = false ∧
    s2.last_percent = some ⌊c / tot * 100⌋ ∧
    s2.last_percent_time_left = e ∧
    s2.est_time_lefts.length = s.est_time_lefts.length := by
  simp only [Printer.print_progress] at h
  split at h
  · cases h
  case h_2 frac hdiv =>
    have htot : tot ≠ 0 := by
      intro h0
      simp [pyDiv, h0] at hdiv
    have hfrac : frac = c / tot := by
      simp only [pyDiv, if_neg htot, Except.ok.injEq] at hdiv
      exact hdiv.symm
    subst hfrac
    split at h
    · -- first print
      simp only [Except.ok.injEq, progressFinish, Prod.mk.injEq] at h
      obtain ⟨h1, h2, h3⟩ := h
      subst h1 h2 h3
      simp
    · split at h
      case isTrue hfp hsame =>
        -- same percent as last time
        simp only [Except.ok.injEq, progressFinish, Prod.mk.injEq] at h
        obtain ⟨h1, h2, h3⟩ := h
        subst h1 h2 h3
        simp only [Bool.not_eq_true] at hfp
        exact ⟨hfp, rfl, rfl, rfl⟩
      case isFalse hfp hsame =>
        split at h
        case h_1 lppt lp heq =>
          split at h
          · cases h
          case h_2 slope hslope =>
            split at h
            · cases h
            case h_2 chunkFrac hchunk =>
              split at h
              · cases h
              case h_2 est_q hest =>
                simp only [Except.ok.injEq, progressFinish, Prod.mk.injEq] at h
                obtain ⟨h1, h2, h3⟩ := h
                subst h1 h2 h3
                simp only [Bool.not_eq_true] at hfp
                refine ⟨hfp, rfl, rfl, ?_⟩
                simp [List.length_drop]
        · cases h
        · cases h

/-- Branch 1 of print_progress: first call on this state reports the
infinite sentinel and stamps the start and last-print times. -/
theorem print_progress_first (s : Printer) (t c tot : ℚ) (m : Option String)
    (hfp : s.is_first_print = true) (htot : tot ≠ 0) :
    s.print_progress t c tot m =
      .ok ({ s with is_first_print := false
                    last_percent_time_left := some PyFloat.inf
                    last_percent_print_time := some t
                    start_time := some t
                    last_percent := some ⌊c / tot * 100⌋
                    last_printed_line :=
                      some (progressLineOf c tot ⌊c / tot * 100⌋ m (some PyFloat.inf)) },
           some PyFloat.inf,
           progressLineOf c tot ⌊c / tot * 100⌋ m (some PyFloat.inf)) := by
  obtain ⟨fp, lpF, ltlF, lpptF, estsF, stF, lineF⟩ := s
  simp only at hfp
  subst hfp
  simp [Printer.print_progress, pyDiv, htot, progressFinish]

/-- Branch 2 of print_progress: the floor-percent is unchanged from
the previous call, so the cached estimate is reused verbatim. -/
theorem print_progress_same (s : Printer) (t c tot : ℚ) (m : Option String)
    (hfp : s.is_first_print = false) (htot : tot ≠ 0)
    (hsame : s.last_percent = some ⌊c / tot * 100⌋) :
    s.print_progress t c tot m =
      .ok ({ s with last_percent := some ⌊c / tot * 100⌋
                    last_printed_line :=
                      some (progressLineOf c tot ⌊c / tot * 100⌋ m
                        s.last_percent_time_left) },
           s.last_percent_time_left,
           progressLineOf c tot ⌊c / tot * 100⌋ m s.last_percent_time_left) := by
  obtain ⟨fp, lpF, ltlF, lpptF, estsF, stF, lineF⟩ := s
  simp only at hfp hsame
  subst hfp hsame
  simp [Printer.print_progress, pyDiv, htot, progressFinish]

/-- Branch 3 of print_progress: the floor-percent moved.  The raw
linear-extrapolation sample is pushed into the window (oldest slot
dropped), and the reported estimate is the smoothed value: with
chunk_left = round((100 - percent) / (percent - lastPercent)), the
mean of the last chunk_left window samples when chunk_left is below
the window length (0 when chunk_left is 0), else the mean of the whole
window. -/
theorem print_progress_advance (s : Printer) (t c tot : ℚ) (m : Option String)
    (lp : Int) (t0 : ℚ) (cp : Int) (raw : ℚ) (w : List ℚ) (cl : Int) (rep : ℚ)
    (hfp : s.is_first_print = false)
    (hlp : s.last_percent = some lp)
    (ht0 : s.last_percent_print_time = some t0)
    (htot : tot ≠ 0)
    (hcp : cp = ⌊c / tot * 100⌋)
    (hne : lp ≠ cp)
    (hwin : s.est_time_lefts ≠ [])
    (hraw : raw = (t - t0) / ((cp : ℚ) - (lp : ℚ)) * (100 - (cp : ℚ)))
    (hw : w = (s.est_time_lefts ++ [raw]).drop 1)
    (hcl : cl = pyRound (((100 - cp : Int) : ℚ) / ((cp - lp : Int) : ℚ)))
    (hrep : rep = if cl < (w.length : Int) then
        (if cl ≠ 0 then (pySliceFrom w (-cl)).sum / (cl : ℚ) else 0)
      else w.sum / (w.length : ℚ)) :
    s.print_progress t c tot m =
      .ok ({ s with est_time_lefts := w
                    last_percent_time_left := some (PyFloat.val rep)
                    last_percent_print_time := some t
                    last_percent := some cp
                    last_printed_line :=
                      some (progressLineOf c tot cp m (some (PyFloat.val rep))) },
           some (PyFloat.val rep),
           progressLineOf c tot cp m (some (PyFloat.val rep))) := by
  have hdiff : ((cp : ℚ) - (lp : ℚ)) ≠ 0 := by
    intro h0
    exact hne (by exact_mod_cast (sub_eq_zero.mp h0).symm)
  have hdiffI : (((cp - lp : Int) : ℚ)) ≠ 0 := by
    push_cast
    exact hdiff
  obtain ⟨fp, lpF, ltlF, lpptF, estsF, stF, lineF⟩ := s
  simp only at hfp hlp ht0 hwin
  subst hfp hlp ht0
  have hne2 : ¬ (some lp = some ⌊c / tot * 100⌋) := by
    rw [← hcp]
    simp [hne]
  simp only [Printer.print_progress, pyDiv, if_neg htot, Bool.false_eq_true,
    if_false, if_neg hne2, ← hcp, if_neg hdiff, if_neg hdiffI, ← hraw, ← hw, ← hcl]
  by_cases h1 : cl < ((w.length : Int))
  · by_cases h2 : cl = 0
    · subst h2
      have h1n : 0 < w.length := by exact_mod_cast h1
      rw [hrep]
      simp [progressFinish, hne, h1n]
    · have hclQ : ((cl : ℚ)) ≠ 0 := by exact_mod_cast h2
      rw [hrep]
      simp [progressFinish, hne, h1, h2, if_neg hclQ]
  · have hlen0 : estsF.length ≠ 0 := by simpa using hwin
    have hwlen : w.length = estsF.length := by
      rw [hw]
      simp
    have hlen : ((w.length : ℚ)) ≠ 0 := by
      rw [hwlen]
      exact_mod_cast hlen0
    have hwne : w ≠ [] := by
      intro h0
      rw [h0] at hwlen
      exact hlen0 hwlen.symm
    rw [hrep]
    simp [progressFinish, hne, h1, if_neg hlen, hwne]

/-- C3 counterexample: immediately after print_done on a fresh
instance, the sliding window holds 3 slots, not the 5 slots of a
freshly constructed Printer — so not every field equals its freshly
constructed value. -/
theorem print_done_window_counterexample :
    ¬ Printer.init.print_done.est_time_lefts.length = 5 ∧
    Printer.init.print_done.est_time_lefts.length = 3 := by
  decide

/-- C3 amended: after any call to print_done, is_first_print is True
and start_time, last_percent, last_percent_print_time,
last_percent_time_left and last_printed_line are None, but the sliding
window est_time_lefts is reset to exactly THREE zero slots (a freshly
constructed Printer has five). -/
theorem print_done_resets (s : Printer) :
    s.print_done.is_first_print = true ∧
    s.print_done.start_time = none ∧
    s.print_done.last_percent = none ∧
    s.print_done.last_percent_print_time = none ∧
    s.print_done.last_percent_time_left = none ∧
    s.print_done.last_printed_line = none ∧
    s.print_done.est_time_lefts = [0, 0, 0] :=
  ⟨rfl, rfl, rfl, rfl, rfl, rfl, rfl⟩

/-- C9: print_progress with total = 0 raises ZeroDivisionError at the
initial percent computation.  In this embedding the division is the
first operation of the call, before any state field is written, so the
failed call leaves the estimator state untouched. -/
theorem print_progress_zero_total (s : Printer) (t c : ℚ) (m : Option String) :
    s.print_progress t c 0 m = .error .zeroDivisionError := rfl

/-- C10: print_done resets the window to exactly 3 entries, and every
successful print_progress call preserves the window length (append
newest, drop oldest), so operations after the first print_done smooth
over a 3-sample window. -/
theorem window_three_after_done (s s2 : Printer) (t c tot : ℚ) (m : Option String)
    (e : Option PyFloat) (l : ProgressLine)
    (h : s.print_progress t c tot m = .ok (s2, e, l)) :
    s.print_done.est_time_lefts.length = 3 ∧
    s2.est_time_lefts.length = s.est_time_lefts.length :=
  ⟨rfl, (print_progress_ok_post s s2 t c tot m e l h).2.2.2⟩

/-- The state reached by a fresh Printer after print_progress at time
0 with curr = 10, total = 100. -/
def sAfterTen : Printer :=
  { is_first_print := false
    last_percent := some 10
    last_percent_time_left := some PyFloat.inf
    last_percent_print_time := some 0
    est_time_lefts := [0, 0, 0, 0, 0]
    start_time := some 0
    last_printed_line := some (progressLineOf 10 100 10 none (some PyFloat.inf)) }

/-- Witness for C10: the first call on a fresh instance keeps the
5-slot window, and print_done leaves a 3-slot window. -/
theorem window_three_after_done_witness :
    Printer.init.print_done.est_time_lefts.length = 3 ∧
    sAfterTen.est_time_lefts.length = Printer.init.est_time_lefts.length :=
  window_three_after_done Printer.init sAfterTen 0 10 100 none (some PyFloat.inf)
    (progressLineOf 10 100 10 none (some PyFloat.inf))
    (by with_unfolding_all decide)

/-- C6: if print_progress succeeded once and is called again with
arguments yielding the same floor-percent, the second call reports
exactly the estimate cached by the previous call; and on a fresh
instance the first call reports the infinite sentinel. -/
theorem print_progress_estimate_reuse
    (s1 s2 : Printer) (t1 t2 c1 tot1 c2 tot2 t c tot : ℚ)
    (m1 m2 m3 : Option String) (e1 : Option PyFloat) (l1 : ProgressLine)
    (h1 : s1.print_progress t1 c1 tot1 m1 = .ok (s2, e1, l1))
    (htot2 : tot2 ≠ 0)
    (hsame : ⌊c2 / tot2 * 100⌋ = ⌊c1 / tot1 * 100⌋)
    (htot : tot ≠ 0) :
    (∃ s3 l2, s2.print_progress t2 c2 tot2 m2 = .ok (s3, e1, l2)) ∧
    (∃ s0 l0, Printer.init.print_progress t c tot m3 = .ok (s0, some PyFloat.inf, l0)) := by
  obtain ⟨hfp2, hlp2, hltl2, -⟩ := print_progress_ok_post s1 s2 t1 c1 tot1 m1 e1 l1 h1
  constructor
  · have hsame2 : s2.last_percent = some ⌊c2 / tot2 * 100⌋ := by rw [hlp2, hsame]
    have h2 := print_progress_same s2 t2 c2 tot2 m2 hfp2 htot2 hsame2
    rw [hltl2] at h2
    exact ⟨_, _, h2⟩
  · exact ⟨_, _, print_progress_first Printer.init t c tot m3 rfl htot⟩

/-- Witness for C6 at the spec's example update(10,100), update(10,100). -/
theorem print_progress_estimate_reuse_witness :
    (∃ s3 l2, sAfterTen.print_progress 1 10 100 none = .ok (s3, some PyFloat.inf, l2)) ∧
    (∃ s0 l0, Printer.init.print_progress 0 10 100 none =
      .ok (s0, some PyFloat.inf, l0)) :=
  print_progress_estimate_reuse Printer.init sAfterTen 0 1 10 100 10 100 0 10 100
    none none none (some PyFloat.inf) (progressLineOf 10 100 10 none (some PyFloat.inf))
    (by with_unfolding_all decide) (by decide) (by with_unfolding_all decide) (by decide)

/-- C4: on a non-first call with total > 0 whose floor-percent
advanced past the previous one, the raw linear-extrapolation sample
(now - lastPrintTime) / (percent - lastPercent) * (100 - percent) is
appended to the window and the oldest entry dropped, and the reported
estimate is: with chunk_left = round((100 - percent) / (percent -
lastPercent)), the average of the most recent chunk_left samples when
chunk_left is below the window length (exactly 0 when chunk_left = 0),
else the average of the whole window. -/
theorem print_progress_advancing_estimate (s : Printer) (t c tot : ℚ) (m : Option String)
    (lp : Int) (t0 : ℚ) (cp : Int) (raw : ℚ) (w : List ℚ) (cl : Int) (rep : ℚ)
    (hfp : s.is_first_print = false)
    (hlp : s.last_percent = some lp)
    (ht0 : s.last_percent_print_time = some t0)
    (htot : tot ≠ 0)
    (hcp : cp = ⌊c / tot * 100⌋)
    (hadv : lp < cp)
    (hwin : s.est_time_lefts ≠ [])
    (hraw : raw = (t - t0) / ((cp : ℚ) - (lp : ℚ)) * (100 - (cp : ℚ)))
    (hw : w = (s.est_time_lefts ++ [raw]).drop 1)
    (hcl : cl = pyRound (((100 - cp : Int) : ℚ) / ((cp - lp : Int) : ℚ)))
    (hrep : rep = if cl < (w.length : Int) then
        (if cl ≠ 0 then (pySliceFrom w (-cl)).sum / (cl : ℚ) else 0)
      else w.sum / (w.length : ℚ)) :
    s.print_progress t c tot m =
      .ok ({ s with est_time_lefts := w
                    last_percent_time_left := some (PyFloat.val rep)
                    last_percent_print_time := some t
                    last_percent := some cp
                    last_printed_line :=
                      some (progressLineOf c tot cp m (some (PyFloat.val rep))) },
           some (PyFloat.val rep),
           progressLineOf c tot cp m (some (PyFloat.val rep))) :=
  print_progress_advance s t c tot m lp t0 cp raw w cl rep hfp hlp ht0 htot hcp
    (Int.ne_of_lt hadv) hwin hraw hw hcl hrep

/-- A mid-operation estimator state: 10 percent done, window full of
zeros. -/
def sMid : Printer :=
  { is_first_print := false
    last_percent := some 10
    last_percent_time_left := some (PyFloat.val 1)
    last_percent_print_time := some 0
    est_time_lefts := [0, 0, 0, 0, 0]
    start_time := some 0
    last_printed_line := none }

/-- Witness for C4: advancing from 10 to 20 percent at time 2 pushes
raw sample 16 and reports the whole-window average 16/5 (chunk_left =
8 is not below the window length 5). -/
theorem print_progress_advancing_estimate_witness :
    sMid.print_progress 2 20 100 none =
      .ok ({ sMid with est_time_lefts := [0, 0, 0, 0, 16]
                       last_percent_time_left := some (PyFloat.val (16 / 5))
                       last_percent_print_time := some 2
                       last_percent := some 20
                       last_printed_line :=
                         some (progressLineOf 20 100 20 none
                           (some (PyFloat.val (16 / 5)))) },
           some (PyFloat.val (16 / 5)),
           progressLineOf 20 100 20 none (some (PyFloat.val (16 / 5)))) :=
  print_progress_advancing_estimate sMid 2 20 100 none 10 0 20 16 [0, 0, 0, 0, 16]
    8 (16 / 5) rfl rfl rfl (by decide) (by with_unfolding_all decide) (by decide)
    (by decide) (by with_unfolding_all decide) (by with_unfolding_all decide)
    (by with_unfolding_all decide) (by with_unfolding_all decide)

/-- The invariant maintained by the estimator: the window is nonempty,
and once the first print happened the last-percent and last-print-time
fields are set. -/
def PrinterInv (s : Printer) : Prop :=
  s.est_time_lefts ≠ [] ∧
  (s.is_first_print = false →
    (∃ lp, s.last_percent = some lp) ∧ (∃ t0, s.last_percent_print_time = some t0))

/-- Any print_progress call with nonzero total on a state satisfying
the invariant succeeds (no division error, no None arithmetic) and
preserves the invariant. -/
theorem print_progress_inv_ok (s : Printer) (t c tot : ℚ) (m : Option String)
    (hinv : PrinterInv s) (htot : tot ≠ 0) :
    ∃ out, s.print_progress t c tot m = .ok out ∧ PrinterInv out.1 := by
  obtain ⟨hwin, hrest⟩ := hinv
  by_cases hfp : s.is_first_print = true
  · refine ⟨_, print_progress_first s t c tot m hfp htot, ⟨by simpa using hwin, ?_⟩⟩
    intro _
    exact ⟨⟨_, rfl⟩, ⟨_, rfl⟩⟩
  · have hfp2 : s.is_first_print = false := by
      revert hfp
      cases s.is_first_print <;> simp
    obtain ⟨⟨lp, hlp⟩, ⟨t0, ht0⟩⟩ := hrest hfp2
    by_cases hsame : s.last_percent = some ⌊c / tot * 100⌋
    · refine ⟨_, print_progress_same s t c tot m hfp2 htot hsame, ⟨by simpa using hwin, ?_⟩⟩
      intro _
      exact ⟨⟨_, rfl⟩, ⟨t0, by simpa using ht0⟩⟩
    · have hne : lp ≠ ⌊c / tot * 100⌋ := by
        intro h0
        exact hsame (by rw [hlp, h0])
      refine ⟨_, print_progress_advance s t c tot m lp t0 ⌊c / tot * 100⌋ _ _ _ _
        hfp2 hlp ht0 htot rfl hne hwin rfl rfl rfl rfl, ⟨?_, ?_⟩⟩
      · have hlen : ((s.est_time_lefts ++
            [(t - t0) / ((((⌊c / tot * 100⌋ : Int)) : ℚ) - (lp : ℚ)) *
              (100 - (((⌊c / tot * 100⌋ : Int)) : ℚ))]).drop 1).length =
            s.est_time_lefts.length := by
          simp
        intro h0
        apply hwin
        have := congrArg List.length h0
        rw [hlen] at this
        simpa using this
      · intro _
        exact ⟨⟨_, rfl⟩, ⟨_, rfl⟩⟩

/-- Running a sequence of calls with nonzero totals from an invariant
state never raises and preserves the invariant. -/
theorem runProgress_inv_ok :
    ∀ (calls : List (ℚ × ℚ × ℚ)) (s : Printer),
      PrinterInv s → (∀ x ∈ calls, x.2.2 ≠ 0) →
      ∃ s2, runProgress s calls = .ok s2 ∧ PrinterInv s2
  | [], s, hinv, _ => ⟨s, rfl, hinv⟩
  | cl :: rest, s, hinv, hall => by
    obtain ⟨out, hout, hinv2⟩ := print_progress_inv_ok s cl.1 cl.2.1 cl.2.2 none hinv
      (hall cl (List.mem_cons_self ..))
    obtain ⟨s2, hs2, hinv3⟩ := runProgress_inv_ok rest out.1 hinv2
      (fun x hx => hall x (List.mem_cons_of_mem _ hx))
    refine ⟨s2, ?_, hinv3⟩
    simpa [runProgress, hout] using hs2

/-- C7: every sequence of print_progress calls with total > 0 on a
fresh Printer raises no division error (every division's denominator
is nonzero on the path reaching it), and in particular the strictly
increasing trace update(0,100), update(50,100), update(100,100)
succeeds and reaches percent 100 before finishing. -/
theorem runProgress_no_div_error (calls : List (ℚ × ℚ × ℚ))
    (hpos : ∀ x ∈ calls, 0 < x.2.2) :
    (∃ s2, runProgress Printer.init calls = .ok s2) ∧
    (∃ s2, runProgress Printer.init [(1, 0, 100), (2, 50, 100), (3, 100, 100)] =
        .ok s2 ∧ s2.last_percent = some 100) := by
  constructor
  · obtain ⟨s2, h2, -⟩ := runProgress_inv_ok calls Printer.init
      ⟨by decide, by intro h0; cases h0⟩ (fun x hx => ne_of_gt (hpos x hx))
    exact ⟨s2, h2⟩
  · exact ⟨{ is_first_print := false
             last_percent := some 100
             last_percent_time_left := some (PyFloat.val 0)
             last_percent_print_time := some 3
             est_time_lefts := [0, 0, 0, 1, 0]
             start_time := some 1
             last_printed_line :=
               some (progressLineOf 100 100 100 none (some (PyFloat.val 0))) },
      by with_unfolding_all decide, rfl⟩

/-- Witness for C7 at the spec's strictly increasing trace. -/
theorem runProgress_no_div_error_witness :
    (∃ s2, runProgress Printer.init [(1, 0, 100), (2, 50, 100), (3, 100, 100)] =
      .ok s2) ∧
    (∃ s2, runProgress Printer.init [(1, 0, 100), (2, 50, 100), (3, 100, 100)] =
        .ok s2 ∧ s2.last_percent = some 100) :=
  runProgress_no_div_error [(1, 0, 100), (2, 50, 100), (3, 100, 100)] (by decide)
